import Mathlib

/-
  Verification development for the CSV ingestion engine (process_csv.py).

  Shallow embedding conventions:
  * Python floats are modelled as `Rat`; the `float(value)` parse is `parseFloat`
    (sign, digits, optional fraction, optional exponent; the named specials
    "inf"/"nan" and underscore separators are not modelled).  A failed parse is
    `none` and plays the role of `math.nan` in comparisons (`sliderCond`).
  * Values read from the loosely-typed metadata documents that can make
    `float(...)` raise are modelled by `RawScore` (missing key, malformed,
    numeric); a missing `condition` key is `Option.none` and raises `KeyError`,
    modelled by `Except.error ()`.
  * The per-field `try/except` of `process_single_row` is the
    `Except.error → default` branch of `processField`; every mutation of
    `answer_obj` in the source happens after the last raising operation of its
    branch, so the all-or-nothing `Except` semantics coincides with the source.
  * Mongo bulk writes are modelled by accumulating the committed (order, row)
    pairs / output operations; the `max_bulk_ops` flush boundaries only group
    the same writes and are not tracked.  `lastRecord` updates are recorded in
    `StreamResult.lastRecordUpdate`.
  * `num_workers` is environment-dependent (cpu count), so it is the parameter
    `W`; theorems assume `1 ≤ W` (with `W = 0` the source divides by zero).
  * Chunk files are written with `csv.writer` and re-read with `csv.reader`
    using the same dialect; this roundtrip is modelled as the identity on rows.
-/

set_option maxHeartbeats 1000000
set_option maxRecDepth 4000

/-! ## Python string helpers -/

/-- The whitespace set stripped by Python `str.strip()`. -/
def pyIsSpace (c : Char) : Bool :=
  c == ' ' || c == '\t' || c == '\n' || c == '\r' || c == '\x0b' || c == '\x0c'

/-- `str.strip()` on a character list. -/
def pyStripList (l : List Char) : List Char :=
  ((l.dropWhile pyIsSpace).reverse.dropWhile pyIsSpace).reverse

/-- Python `str.strip()`. -/
def pyStrip (s : String) : String :=
  String.mk (pyStripList s.data)

/-- Accumulator pass for `pySplitChar`; `cur` holds the reversed current token. -/
def splitCharAux (sep : Char) : List Char → List Char → List String
  | [], cur => [String.mk cur.reverse]
  | c :: rest, cur =>
    if c = sep then String.mk cur.reverse :: splitCharAux sep rest []
    else splitCharAux sep rest (c :: cur)

/-- Python `str.split(sep)` for a one-character separator (`"".split(sep)`
is `[""]`, like in Python). -/
def pySplitChar (sep : Char) (s : String) : List String :=
  splitCharAux sep s.data []

/-- `re.sub(r"<[^>]+>", "", text)`: drop every span from a `<` to the first
following `>` that has at least one character between them.  The second
argument holds the (reversed) characters read since an unclosed `<`, or `none`
when not inside a candidate tag. -/
def stripTagsAux : List Char → Option (List Char) → List Char
  | [], none => []
  | [], some pend => '<' :: pend.reverse
  | c :: rest, none =>
    if c = '<' then stripTagsAux rest (some [])
    else c :: stripTagsAux rest none
  | c :: rest, some pend =>
    if c = '>' then
      if pend.isEmpty then '<' :: '>' :: stripTagsAux rest none
      else stripTagsAux rest none
    else stripTagsAux rest (some (c :: pend))

/-- `normalize_header` (process_csv.py:38-41): remove HTML-like tags, strip,
lowercase. -/
def normalize_header (text : String) : String :=
  String.mk ((pyStripList (stripTagsAux text.data none)).map Char.toLower)

/-! ## Python number parsing -/

def digitsToNat (ds : List Char) : Nat :=
  ds.foldl (fun acc c => acc * 10 + (c.toNat - 48)) 0

lemma pow10_ne_zero (n : Nat) : (10 : Nat) ^ n ≠ 0 := by positivity

/-- Addition on `Rat` via the smart constructor `Rat.normalize`; equal to `+`
(`pyAdd_eq` below) but reducible by the kernel, unlike `Rat.add`. -/
def pyAdd (a b : Rat) : Rat :=
  Rat.normalize (a.num * b.den + b.num * a.den) (a.den * b.den)
    (Nat.mul_ne_zero a.den_nz b.den_nz)

/-- Scale a rational by a power of ten (the exponent part of a float literal). -/
def pyMulPow10 (m : Rat) (e : Int) : Rat :=
  match e with
  | Int.ofNat k => Rat.normalize (m.num * (10 : Int) ^ k) m.den m.den_nz
  | Int.negSucc k =>
    Rat.normalize m.num (m.den * 10 ^ (k + 1))
      (Nat.mul_ne_zero m.den_nz (pow10_ne_zero (k + 1)))

/-- Mantissa of a float literal: `digits[.digits]`, `.digits`, or `digits.`.
The value `i.f` is constructed as `(i*10^|f| + f) / 10^|f|`. -/
def parseMantissa (cs : List Char) : Option (Rat × List Char) :=
  let p := cs.span Char.isDigit
  match p.2 with
  | '.' :: t =>
    let q := t.span Char.isDigit
    if p.1.isEmpty && q.1.isEmpty then none
    else
      some
        (Rat.normalize (digitsToNat p.1 * (10 : Int) ^ q.1.length + digitsToNat q.1)
            ((10 : Nat) ^ q.1.length) (pow10_ne_zero q.1.length),
          q.2)
  | _ =>
    if p.1.isEmpty then none
    else some (Rat.normalize (digitsToNat p.1) 1 one_ne_zero, p.2)

/-- Optional exponent suffix `e[+-]digits` of a float literal. -/
def parseExp (cs : List Char) : Option Int :=
  match cs with
  | [] => some 0
  | c :: t =>
    if c == 'e' || c == 'E' then
      match t with
      | '+' :: r =>
        let q := r.span Char.isDigit
        if q.1.isEmpty then none
        else if q.2.isEmpty then some (digitsToNat q.1 : Int) else none
      | '-' :: r =>
        let q := r.span Char.isDigit
        if q.1.isEmpty then none
        else if q.2.isEmpty then some (-(digitsToNat q.1 : Int)) else none
      | _ =>
        let q := t.span Char.isDigit
        if q.1.isEmpty then none
        else if q.2.isEmpty then some (digitsToNat q.1 : Int) else none
    else none

/-- Python `float(s)` restricted to finite decimal literals; `none` models a
`ValueError` (and the resulting `math.nan` in the slider branch). -/
def parseFloat (s : String) : Option Rat :=
  match pyStripList s.data with
  | '+' :: t =>
    match parseMantissa t with
    | none => none
    | some mr =>
      match parseExp mr.2 with
      | none => none
      | some e => some (pyMulPow10 mr.1 e)
  | '-' :: t =>
    match parseMantissa t with
    | none => none
    | some mr =>
      match parseExp mr.2 with
      | none => none
      | some e => some (pyMulPow10 (Rat.normalize (-mr.1.num) mr.1.den mr.1.den_nz) e)
  | cs =>
    match parseMantissa cs with
    | none => none
    | some mr =>
      match parseExp mr.2 with
      | none => none
      | some e => some (pyMulPow10 mr.1 e)

/-- Python `int(s)` (sign and digits; underscores not modelled). -/
def pyInt (s : String) : Option Int :=
  match pyStripList s.data with
  | '+' :: t =>
    let q := t.span Char.isDigit
    if q.1.isEmpty then none
    else if q.2.isEmpty then some (digitsToNat q.1 : Int) else none
  | '-' :: t =>
    let q := t.span Char.isDigit
    if q.1.isEmpty then none
    else if q.2.isEmpty then some (-(digitsToNat q.1 : Int)) else none
  | cs =>
    let q := cs.span Char.isDigit
    if q.1.isEmpty then none
    else if q.2.isEmpty then some (digitsToNat q.1 : Int) else none

/-! ## Scoring data model (FieldDefinition / ScoreRule / Answer) -/

/-- A score value from the metadata document: the key may be absent
(`.get("score", 0)` yields 0), hold a number, or hold a value on which
`float(...)` raises. -/
inductive RawScore where
  | missing : RawScore
  | malformed : RawScore
  | num : Rat → RawScore
deriving DecidableEq

/-- `float(sc.get("score", 0))`: raises on a malformed value. -/
def RawScore.eval : RawScore → Except Unit Rat
  | .missing => Except.ok 0
  | .malformed => Except.error ()
  | .num q => Except.ok q

/-- The numeric value of a well-formed score (used to state sums). -/
def scoreVal : RawScore → Rat
  | .num q => q
  | _ => 0

structure AnswerOption where
  name : String
  score : RawScore
deriving DecidableEq

/-- A `scoreOptions` entry.  `condition = none` models a missing `condition`
key (`sc["condition"]` raises `KeyError`).  `count` is the raw string value of
the `count` key (`none` when absent); the slider branch parses it with
`float`, replacing a missing or unparsable count by 0 (the inner
`try/except (ValueError, KeyError)` at process_csv.py:128-131). -/
structure ScoreRule where
  condition : Option String
  count : Option String
  score : RawScore
deriving DecidableEq

inductive AnswerVal where
  | unset : AnswerVal
  | str : String → AnswerVal
  | strList : List String → AnswerVal
  | date : Int → Int → Int → AnswerVal
deriving DecidableEq

/-- The parts of `answer_obj` the claims are about; the metadata passthrough
fields (ids, timestamps, flags) are copied verbatim from the question and are
omitted. -/
structure FieldResult where
  scorevalue : Rat
  answer : AnswerVal
deriving DecidableEq

structure Question where
  qtype : String
  title : String
  answerOptions : List AnswerOption
  scoreOptions : List ScoreRule
deriving DecidableEq

/-- Option lookup used by the choice branches (process_csv.py:77-81, 92-96):
first option whose normalized name equals the normalized value. -/
def findOption (opts : List AnswerOption) (v : String) : Option AnswerOption :=
  opts.find? (fun r => normalize_header r.name == normalize_header v)

/-- "Single choice responder" branch (process_csv.py:76-85). -/
def evalSingle (value : String) (opts : List AnswerOption) : Except Unit FieldResult :=
  match findOption opts value with
  | some r =>
    match r.score.eval with
    | Except.error e => Except.error e
    | Except.ok s => Except.ok ⟨s, AnswerVal.str value⟩
  | none => Except.ok ⟨0, AnswerVal.str value⟩

/-- Score loop of the "Multiple choice responder" branch (process_csv.py:90-98). -/
def evalMultiScore (opts : List AnswerOption) : List String → Rat → Except Unit Rat
  | [], acc => Except.ok acc
  | c :: rest, acc =>
    match findOption opts c with
    | some o =>
      match o.score.eval with
      | Except.error e => Except.error e
      | Except.ok s => evalMultiScore opts rest (pyAdd acc s)
    | none => evalMultiScore opts rest acc

/-- "Multiple choice responder" branch (process_csv.py:87-100). -/
def evalMulti (value : String) (opts : List AnswerOption) : Except Unit FieldResult :=
  match evalMultiScore opts ((pySplitChar ',' value).map pyStrip) 0 with
  | Except.error e => Except.error e
  | Except.ok s => Except.ok ⟨s, AnswerVal.strList ((pySplitChar ',' value).map pyStrip)⟩

/-- Score loop of the "Text answer" branch (process_csv.py:102-112). -/
def evalText (value : String) : List ScoreRule → Rat → Except Unit Rat
  | [], acc => Except.ok acc
  | sc :: rest, acc =>
    match sc.condition with
    | none => Except.error ()
    | some cond =>
      if (cond == "is customized keyword" && sc.count == some value)
          || (cond == "is not blank" && !(value == ""))
          || (cond == "is blank" && value == "")
      then
        match sc.score.eval with
        | Except.error e => Except.error e
        | Except.ok s => evalText value rest (pyAdd acc s)
      else evalText value rest acc

/-- Condition dispatch of the slider/number branch (process_csv.py:132-144).
`num = none` models `math.nan`: every comparison is false except `!=`, which
is true for NaN in Python. -/
def sliderCond (cond : String) (num : Option Rat) (cnt : Rat) : Bool :=
  if cond == "less than" then
    match num with | some v => decide (v < cnt) | none => false
  else if cond == "less than or equal to" then
    match num with | some v => decide (v ≤ cnt) | none => false
  else if cond == "equal to" then
    match num with | some v => v == cnt | none => false
  else if cond == "not equal to" then
    match num with | some v => !(v == cnt) | none => true
  else if cond == "greater than or equal to" then
    match num with | some v => decide (cnt ≤ v) | none => false
  else if cond == "greater than" then
    match num with | some v => decide (cnt < v) | none => false
  else false

/-- `cnt = float(sc["count"])` with missing/unparsable replaced by 0. -/
def cntOf (sc : ScoreRule) : Rat := (sc.count.bind parseFloat).getD 0

/-- Score loop of the "Slider"/"Number" branch (process_csv.py:126-144).
The matched rule's score is only evaluated (and can only raise) when the
condition holds, exactly as in the source. -/
def evalSlider (num : Option Rat) : List ScoreRule → Rat → Except Unit Rat
  | [], acc => Except.ok acc
  | sc :: rest, acc =>
    match sc.condition with
    | none => Except.error ()
    | some cond =>
      if sliderCond cond num (cntOf sc) then
        match sc.score.eval with
        | Except.error e => Except.error e
        | Except.ok s => evalSlider num rest (pyAdd acc s)
      else evalSlider num rest acc

def daysInMonth (y m : Int) : Int :=
  if m = 2 then (if (y % 4 = 0 ∧ ¬y % 100 = 0) ∨ y % 400 = 0 then 29 else 28)
  else if m = 4 ∨ m = 6 ∨ m = 9 ∨ m = 11 then 30
  else 31

/-- `check_date_and_time` (helpers/dateTime_helper.py:84-132) restricted to the
string case, the only one reachable from a CSV cell: split off the time part,
require `YYYY/MM/DD`, parse ints, and validate by constructing the date
(`datetime(...)` raises on an out-of-range component, caught to invalid). -/
def check_date_and_time (value : String) : Option (Int × Int × Int) :=
  match pySplitChar ' ' (pyStrip value) with
  | [] => none
  | datePart :: _ =>
    match pySplitChar '/' datePart with
    | [ys, ms, ds] =>
      match pyInt ys, pyInt ms, pyInt ds with
      | some y, some m, some d =>
        if 1 ≤ y ∧ y ≤ 9999 ∧ 1 ≤ m ∧ m ≤ 12 ∧ 1 ≤ d ∧ d ≤ daysInMonth y m
        then some (y, m, d)
        else none
      | _, _, _ => none
    | _ => none

/-- Value processing of one field (the `try` body, process_csv.py:76-149),
dispatching on the question type string. -/
def evalValue (q : Question) (value : String) : Except Unit FieldResult :=
  if q.qtype == "Single choice responder" then
    evalSingle value q.answerOptions
  else if q.qtype == "Multiple choice responder" then
    evalMulti value q.answerOptions
  else if q.qtype == "Text answer" then
    match evalText value q.scoreOptions 0 with
    | Except.error e => Except.error e
    | Except.ok s => Except.ok ⟨s, AnswerVal.str value⟩
  else if q.qtype == "Date & Time" then
    match check_date_and_time value with
    | some ymd => Except.ok ⟨0, AnswerVal.date ymd.1 ymd.2.1 ymd.2.2⟩
    | none => Except.ok ⟨0, AnswerVal.unset⟩
  else if q.qtype == "Slider" || q.qtype == "Number" then
    match evalSlider (parseFloat value) q.scoreOptions 0 with
    | Except.error e => Except.error e
    | Except.ok s => Except.ok ⟨s, AnswerVal.str value⟩
  else Except.ok ⟨0, AnswerVal.str value⟩

/-- One field of one row: a `none`/empty value keeps the zero-score default
(process_csv.py:74), and a raised exception is caught leaving the default
(process_csv.py:150-152). -/
def processField (q : Question) (value : Option String) : FieldResult :=
  match value with
  | none => ⟨0, AnswerVal.unset⟩
  | some v =>
    if v == "" then ⟨0, AnswerVal.unset⟩
    else
      match evalValue q v with
      | Except.ok r => r
      | Except.error _ => ⟨0, AnswerVal.unset⟩

/-- The parts of the emitted `UpdateOne` the claims are about: the `order` key,
the `answer.title` key and the answer payload. -/
structure OutputOp where
  order : Nat
  title : String
  result : FieldResult
deriving DecidableEq

/-- `for i, q in enumerate(question_meta)` of `process_single_row`
(process_csv.py:44-181): `value = row[i].strip() if i < len(row) else None`,
then one op is appended per question, unconditionally. -/
def processRowGo (row : List String) (row_order : Nat) : Nat → List Question → List OutputOp
  | _, [] => []
  | i, q :: qs =>
    ⟨row_order, q.title, processField q ((row[i]?).map pyStrip)⟩ ::
      processRowGo row row_order (i + 1) qs

def process_single_row (row : List String) (row_order : Nat) (qs : List Question) :
    List OutputOp :=
  processRowGo row row_order 0 qs

/-! ## Chunk worker (process_chunk_copy) -/

/-- `row = [v.strip() for v in row]` (process_csv.py:423). -/
def stripRow (row : List String) : List String := row.map pyStrip

/-- Python `any(row)` on a list of strings: some entry is non-empty. -/
def truthyRow (r : List String) : Bool := r.any (fun v => !(v == ""))

/-- Worker loop state: `processed` counts rows of completed sub-batches,
`batch` is the pending sub-batch, `out` the committed (order, row) pairs. -/
structure ChunkState where
  processed : Nat
  batch : List (List String)
  out : List (Nat × List String)
deriving DecidableEq

/-- Flush the pending sub-batch (process_csv.py:430-456 / 459-484):
`row_orders = [order_start + processed + j for j in range(len(batch))]`, the
resulting ops are committed, `processed += len(batch)`, `batch = []`. -/
def flushBatch (order_start : Nat) (s : ChunkState) : ChunkState :=
  { processed := s.processed + s.batch.length
    batch := []
    out := s.out ++
      ((List.range s.batch.length).map (fun j => order_start + s.processed + j)).zip s.batch }

/-- One iteration of the worker loop (process_csv.py:418-456): strip the row,
skip it when entirely empty, otherwise append it to the batch and flush when
the batch reaches 500 rows. -/
def chunkStep (order_start : Nat) (s : ChunkState) (row : List String) : ChunkState :=
  if truthyRow (stripRow row) then
    if 500 ≤ s.batch.length + 1 then
      flushBatch order_start { s with batch := s.batch ++ [stripRow row] }
    else { s with batch := s.batch ++ [stripRow row] }
  else s

/-- Final sub-batch flush (process_csv.py:459-484). -/
def finalizeChunk (order_start : Nat) (s : ChunkState) : ChunkState :=
  if s.batch.isEmpty then s else flushBatch order_start s

/-- `process_chunk_copy` (process_csv.py:398-499): read at most
`rows_to_process` rows from the chunk file and run the worker loop. -/
def process_chunk_copy (rows : List (List String)) (rows_to_process order_start : Nat) :
    ChunkState :=
  finalizeChunk order_start
    ((rows.take rows_to_process).foldl (chunkStep order_start) ⟨0, [], []⟩)

/-! ## Chunk splitter and stream (stream_local_csv) -/

/-- Chunk sizes (process_csv.py:579-595): `chunk_size = remaining // W` for all
but the last worker, which gets `remaining - current_offset`. -/
def chSizesAux (c remaining : Nat) : Nat → Nat → List Nat
  | _, 0 => []
  | offset, 1 => [remaining - offset]
  | offset, k + 2 => c :: chSizesAux c remaining (offset + c) (k + 1)

def chSizes (remaining W : Nat) : List Nat :=
  chSizesAux (remaining / W) remaining 0 W

/-- Sequentially hand each chunk its rows and its
`order_start = start_order + current_offset` (process_csv.py:599-609), and
collect every worker's committed pairs. -/
def chunksGo : List (List String) → List Nat → Nat → List (Nat × List String)
  | _, [], _ => []
  | l, n :: ns, off =>
    (process_chunk_copy (l.take n) n off).out ++ chunksGo (l.drop n) ns (off + n)

/-- Observable outcome of one `stream_local_csv` call: committed (order, row)
pairs across all workers, and the value written to the file record's
`lastRecord`, if any. -/
structure StreamResult where
  pairs : List (Nat × List String)
  lastRecordUpdate : Option Nat
deriving DecidableEq

/-- `stream_local_csv` (process_csv.py:502-636) on the parsed line list
(dialect detection is abstracted away; the first line is the header row).
An empty file raises `StopIteration` at the header read (modelled as
`Except.error ()`); `remaining = max(0, T - skip) = 0` returns early without
touching `lastRecord`; otherwise the chunks are processed and then
`lastRecord` is set once to `skip_rows + total_data_rows`
(process_csv.py:620-624). -/
def stream_local_csv (lines : List (List String)) (skip start_order W : Nat) :
    Except Unit StreamResult :=
  match lines with
  | [] => Except.error ()
  | _ :: dataRows =>
    if dataRows.length - skip = 0 then Except.ok ⟨[], none⟩
    else
      Except.ok
        ⟨chunksGo (dataRows.drop skip) (chSizes (dataRows.length - skip) W) start_order,
          some (skip + dataRows.length)⟩

def streamPairs (lines : List (List String)) (skip start_order W : Nat) :
    List (Nat × List String) :=
  match stream_local_csv lines skip start_order W with
  | Except.ok r => r.pairs
  | Except.error _ => []

def streamLast (lines : List (List String)) (skip start_order W : Nat) : Option Nat :=
  match stream_local_csv lines skip start_order W with
  | Except.ok r => r.lastRecordUpdate
  | Except.error _ => none

def isStreamError (lines : List (List String)) (skip start_order W : Nat) : Bool :=
  match stream_local_csv lines skip start_order W with
  | Except.ok _ => false
  | Except.error _ => true

/-! ## Resume computation (process_csv_file) -/

/-- `start_order` (process_csv.py:278-289): the destination store's maximal
committed `order` for the target plus one, 0 when there is none. -/
def start_order_of (maxOrder : Option Nat) : Nat :=
  match maxOrder with
  | some m => m + 1
  | none => 0

/-- The skip-adjustment loop (process_csv.py:295-306): lower `current_skip`
until the store holds exactly `Q` records at `order = start_order +
current_skip - 1`, re-deriving progress from the store contents `countAt`. -/
def adjust_skip (Q : Nat) (countAt : Nat → Nat) (so : Nat) : Nat → Nat
  | 0 => 0
  | k + 1 => if countAt (so + k) = Q then k + 1 else adjust_skip Q countAt so k

/-- `skip_rows` handed to the stream (process_csv.py:292-314): starts from
`lastRecord` and is adjusted when `Q > 0`. -/
def resume_skip (Q : Nat) (countAt : Nat → Nat) (so lastRecord : Nat) : Nat :=
  if 0 < Q then adjust_skip Q countAt so lastRecord else lastRecord

/-! ## File lifecycle state machine (process_csv_file) -/

inductive FileStatus where
  | Pending : FileStatus
  | Processing : FileStatus
  | Completed : FileStatus
  | Failed : FileStatus
deriving DecidableEq

/-- `find_one_and_update({_id, status ∈ {Pending, Failed}}, {status:
Processing}})` (process_csv.py:207-211): the conditional claim; `none` means
the filter did not match and nothing was updated. -/
def claim_file : FileStatus → Option FileStatus
  | FileStatus.Pending => some FileStatus.Processing
  | FileStatus.Failed => some FileStatus.Processing
  | _ => none

/-- Final status of one `process_csv_file` run from initial status `s`:
an unsuccessful claim returns with the status untouched (process_csv.py:213-216);
a claimed run ends in `Completed` (process_csv.py:381-384) or, when any step of
the body raises, in `Failed` (process_csv.py:387-392). -/
def process_csv_file_status (s : FileStatus) (bodyOk : Bool) : FileStatus :=
  match claim_file s with
  | none => s
  | some _ => if bodyOk then FileStatus.Completed else FileStatus.Failed

/-! ## Specification-side helpers used by theorem statements -/

/-- `(off, l₀), (off+1, l₁), …`: the dense order assignment. -/
def withOrders : Nat → List α → List (Nat × α)
  | _, [] => []
  | off, a :: l => (off, a) :: withOrders (off + 1) l

/-- The stripped non-empty rows of a chunk, in order. -/
def nonEmptyRows (l : List (List String)) : List (List String) :=
  l.filterMap (fun row => if truthyRow (stripRow row) then some (stripRow row) else none)

/-- The rules whose condition holds for the parsed value, per `sliderCond`. -/
def matchingRules (num : Option Rat) (rules : List ScoreRule) : List ScoreRule :=
  rules.filter (fun sc => sliderCond (sc.condition.getD "") num (cntOf sc))

/-- The numeric score of one rule (0 for a missing score key). -/
def ruleScore (sc : ScoreRule) : Rat := scoreVal sc.score

/-- Rules whose metadata cannot make the slider loop raise: the `condition`
key is present and the `score` value is not malformed. -/
def wfRules (rules : List ScoreRule) : Prop :=
  ∀ sc ∈ rules, sc.condition ≠ none ∧ sc.score ≠ RawScore.malformed

instance : DecidablePred wfRules := fun rules =>
  List.decidableBAll _ rules

/-! ## Concrete fixtures -/

def hdr1 : List String := ["h"]

def rowsABC : List (List String) := [["a"], ["b"], ["c"]]

/-- A file whose middle data row is entirely empty. -/
def rowsGap : List (List String) := [["a"], [""], ["b"]]

def rows10 : List (List String) :=
  [["r0"], ["r1"], ["r2"], ["r3"], ["r4"], ["r5"], ["r6"], ["r7"], ["r8"], ["r9"]]

/-- A parsed file whose header row has zero columns (blank first line). -/
def zeroColFile : List (List String) := [[], ["a"]]

/-- Scenario B: numeric field with a greater-than-10 rule worth 5 and a
less-than-or-equal-10 rule worth 2. -/
def scenarioBq : Question :=
  ⟨"Number", "n",
    [],
    [⟨some "greater than", some "10", RawScore.num 5⟩,
      ⟨some "less than or equal to", some "10", RawScore.num 2⟩]⟩

/-- A slider field with a single not-equal-to-10 rule worth 3. -/
def sliderNE10 : Question :=
  ⟨"Slider", "n", [], [⟨some "not equal to", some "10", RawScore.num 3⟩]⟩

/-- Scenario C: multi-choice field with options Red = 3 and Blue = 2. -/
def multiRB : Question :=
  ⟨"Multiple choice responder", "color",
    [⟨"Red", RawScore.num 3⟩, ⟨"Blue", RawScore.num 2⟩], []⟩

/-- A slider question whose rule is missing its `condition` key, so evaluating
any non-empty value raises. -/
def badRuleQ : Question :=
  ⟨"Slider", "bad", [], [⟨none, none, RawScore.num 1⟩]⟩

def plainTextQ : Question := ⟨"Text answer", "t", [], []⟩

/-! ## Helper lemmas -/

lemma pyAdd_eq (a b : Rat) : pyAdd a b = a + b := (Rat.add_def a b).symm

lemma withOrders_append (a b : List α) :
    ∀ off, withOrders off (a ++ b) = withOrders off a ++ withOrders (off + a.length) b := by
  induction a with
  | nil => intro off; simp [withOrders]
  | cons x t ih =>
    intro off
    have h : off + (x :: t).length = (off + 1) + t.length := by
      simp only [List.length_cons]; omega
    show (off, x) :: withOrders (off + 1) (t ++ b)
        = withOrders off (x :: t) ++ withOrders (off + (x :: t).length) b
    rw [h, ih (off + 1)]
    rfl

lemma withOrders_map_fst (l : List α) :
    ∀ off, (withOrders off l).map Prod.fst = List.range' off l.length := by
  induction l with
  | nil => intro off; simp [withOrders, List.range']
  | cons x t ih => intro off; simp [withOrders, List.range', ih]

lemma withOrders_map_snd (l : List α) :
    ∀ off, (withOrders off l).map Prod.snd = l := by
  induction l with
  | nil => intro off; simp [withOrders]
  | cons x t ih => intro off; simp [withOrders, ih]

lemma withOrders_length (l : List α) :
    ∀ off, (withOrders off l).length = l.length := by
  induction l with
  | nil => intro off; simp [withOrders]
  | cons x t ih => intro off; simp [withOrders, ih]

lemma zip_range_eq_withOrders (l : List α) :
    ∀ off, ((List.range l.length).map (fun j => off + j)).zip l = withOrders off l := by
  induction l with
  | nil => intro off; simp [withOrders]
  | cons x t ih =>
    intro off
    rw [List.length_cons, List.range_succ_eq_map]
    simp only [List.map_cons, List.map_map]
    rw [show ((fun j => off + j) ∘ Nat.succ) = (fun j => (off + 1) + j) from
      funext (fun j => by simp [Function.comp, Nat.succ_eq_add_one]; omega)]
    simp only [List.zip_cons_cons, withOrders, ih (off + 1), Nat.add_zero]

lemma nonEmptyRows_nil : nonEmptyRows [] = [] := rfl

lemma nonEmptyRows_cons_pos (row : List String) (t : List (List String))
    (h : truthyRow (stripRow row) = true) :
    nonEmptyRows (row :: t) = stripRow row :: nonEmptyRows t := by
  simp [nonEmptyRows, List.filterMap_cons, h]

lemma nonEmptyRows_cons_neg (row : List String) (t : List (List String))
    (h : truthyRow (stripRow row) = false) :
    nonEmptyRows (row :: t) = nonEmptyRows t := by
  simp [nonEmptyRows, List.filterMap_cons, h]

lemma nonEmptyRows_of_truthy :
    ∀ l : List (List String), (∀ row ∈ l, truthyRow (stripRow row) = true) →
      nonEmptyRows l = l.map stripRow := by
  intro l
  induction l with
  | nil => intro _; rfl
  | cons row t ih =>
    intro h
    rw [nonEmptyRows_cons_pos row t (h row (List.mem_cons_self _ _)), List.map_cons,
      ih (fun r hr => h r (List.mem_cons_of_mem _ hr))]

lemma nonEmptyRows_length_le (l : List (List String)) :
    (nonEmptyRows l).length ≤ l.length :=
  List.length_filterMap_le _ _

lemma flushBatch_out (os : Nat) (s : ChunkState) :
    (flushBatch os s).out = s.out ++ withOrders (os + s.processed) s.batch := by
  show s.out ++ _ = _
  rw [show (fun j => os + s.processed + j) = (fun j => (os + s.processed) + j) from rfl,
    zip_range_eq_withOrders]

lemma flushBatch_processed (os : Nat) (s : ChunkState) :
    (flushBatch os s).processed = s.processed + s.batch.length := rfl

lemma flushBatch_batch (os : Nat) (s : ChunkState) : (flushBatch os s).batch = [] := rfl

lemma finalize_foldl (os : Nat) :
    ∀ (l : List (List String)) (s : ChunkState),
      (finalizeChunk os (l.foldl (chunkStep os) s)).out
        = s.out ++ withOrders (os + s.processed) (s.batch ++ nonEmptyRows l) := by
  intro l
  induction l with
  | nil =>
    intro s
    simp only [List.foldl_nil, nonEmptyRows_nil, List.append_nil, finalizeChunk]
    by_cases hb : s.batch.isEmpty
    · rw [if_pos hb]
      rw [List.isEmpty_iff] at hb
      simp [hb, withOrders]
    · rw [if_neg hb, flushBatch_out]
  | cons row t ih =>
    intro s
    rw [List.foldl_cons]
    cases ht : truthyRow (stripRow row) with
    | false =>
      have hstep : chunkStep os s row = s := by
        simp [chunkStep, ht]
      rw [hstep, ih, nonEmptyRows_cons_neg row t ht]
    | true =>
      by_cases h5 : 500 ≤ s.batch.length + 1
      · have hstep : chunkStep os s row
            = flushBatch os { s with batch := s.batch ++ [stripRow row] } := by
          simp [chunkStep, ht, h5]
        rw [hstep, ih, flushBatch_out]
        simp only [flushBatch_processed, flushBatch_batch, List.nil_append]
        rw [nonEmptyRows_cons_pos row t ht]
        conv_rhs =>
          rw [show s.batch ++ stripRow row :: nonEmptyRows t
                = (s.batch ++ [stripRow row]) ++ nonEmptyRows t by simp,
            withOrders_append]
        rw [List.append_assoc]
        have harith : os + (s.processed + (s.batch ++ [stripRow row]).length)
            = os + s.processed + (s.batch ++ [stripRow row]).length := by omega
        rw [harith]
      · have hstep : chunkStep os s row = { s with batch := s.batch ++ [stripRow row] } := by
          simp [chunkStep, ht, h5]
        rw [hstep, ih]
        rw [nonEmptyRows_cons_pos row t ht,
          show s.batch ++ stripRow row :: nonEmptyRows t
              = (s.batch ++ [stripRow row]) ++ nonEmptyRows t by simp]

lemma process_chunk_copy_out (rows : List (List String)) (n os : Nat) :
    (process_chunk_copy rows n os).out = withOrders os (nonEmptyRows (rows.take n)) := by
  unfold process_chunk_copy
  rw [finalize_foldl]
  simp [withOrders]

lemma chSizesAux_sum (c remaining : Nat) :
    ∀ (k offset : Nat), 1 ≤ k → offset + c * (k - 1) ≤ remaining →
      (chSizesAux c remaining offset k).sum = remaining - offset := by
  intro k
  induction k with
  | zero => intro offset h1 h2; omega
  | succ k ih =>
    intro offset h1 h2
    cases k with
    | zero => simp [chSizesAux]
    | succ k2 =>
      have hm : c * (k2 + 1) = c * k2 + c := Nat.mul_succ c k2
      have h2x : offset + c * (k2 + 1) ≤ remaining := by
        have he : k2 + 1 + 1 - 1 = k2 + 1 := by omega
        rw [he] at h2
        exact h2
      show (c :: chSizesAux c remaining (offset + c) (k2 + 1)).sum = remaining - offset
      rw [List.sum_cons, ih (offset + c) (by omega) (by
        have he2 : k2 + 1 - 1 = k2 := by omega
        rw [he2]
        omega)]
      omega

lemma chSizes_sum (remaining W : Nat) (hW : 1 ≤ W) : (chSizes remaining W).sum = remaining := by
  unfold chSizes
  rw [chSizesAux_sum (remaining / W) remaining W 0 hW (by
    have h1 : remaining / W * W ≤ remaining := Nat.div_mul_le_self remaining W
    have h2 : remaining / W * (W - 1) ≤ remaining / W * W :=
      Nat.mul_le_mul (Nat.le_refl _) (Nat.sub_le W 1)
    omega)]
  omega

lemma chunksGo_out :
    ∀ (sizes : List Nat) (l : List (List String)) (off : Nat),
      sizes.sum = l.length →
      (∀ row ∈ l, truthyRow (stripRow row) = true) →
      chunksGo l sizes off = withOrders off (l.map stripRow) := by
  intro sizes
  induction sizes with
  | nil =>
    intro l off h _
    have hl : l = [] := List.length_eq_zero.mp (by simpa using h.symm)
    subst hl
    rfl
  | cons n ns ih =>
    intro l off h hall
    have hsum : n + ns.sum = l.length := by simpa [List.sum_cons] using h
    have hn : n ≤ l.length := by omega
    show (process_chunk_copy (l.take n) n off).out ++ chunksGo (l.drop n) ns (off + n)
        = withOrders off (l.map stripRow)
    rw [process_chunk_copy_out, List.take_take, min_self]
    rw [nonEmptyRows_of_truthy _ (fun r hr => hall r (List.mem_of_mem_take hr))]
    rw [ih (l.drop n) (off + n) (by rw [List.length_drop]; omega)
      (fun r hr => hall r (List.mem_of_mem_drop hr))]
    have hlen : ((l.take n).map stripRow).length = n := by
      rw [List.length_map, List.length_take]
      omega
    conv_rhs => rw [← List.take_append_drop n l]
    rw [List.map_append, withOrders_append, hlen]

lemma chunksGo_length_le :
    ∀ (sizes : List Nat) (l : List (List String)) (off : Nat),
      (chunksGo l sizes off).length ≤ sizes.sum := by
  intro sizes
  induction sizes with
  | nil => intro l off; simp [chunksGo]
  | cons n ns ih =>
    intro l off
    show ((process_chunk_copy (l.take n) n off).out ++ chunksGo (l.drop n) ns (off + n)).length ≤ _
    rw [List.length_append, process_chunk_copy_out, withOrders_length]
    have h1 : (nonEmptyRows ((l.take n).take n)).length ≤ n := by
      have h1a : (nonEmptyRows ((l.take n).take n)).length ≤ ((l.take n).take n).length :=
        nonEmptyRows_length_le _
      have h1b : ((l.take n).take n).length ≤ n := by
        rw [List.take_take, min_self, List.length_take]
        exact Nat.min_le_left _ _
      omega
    have h2 := ih (l.drop n) (off + n)
    rw [List.sum_cons]
    omega

lemma stream_ok (header : List String) (dataRows : List (List String)) (skip so W : Nat)
    (hrem : 0 < dataRows.length - skip) :
    stream_local_csv (header :: dataRows) skip so W
      = Except.ok
          ⟨chunksGo (dataRows.drop skip) (chSizes (dataRows.length - skip) W) so,
            some (skip + dataRows.length)⟩ := by
  simp only [stream_local_csv]
  rw [if_neg (by omega)]

lemma streamPairs_pos (header : List String) (dataRows : List (List String)) (skip so W : Nat)
    (hrem : 0 < dataRows.length - skip) :
    streamPairs (header :: dataRows) skip so W
      = chunksGo (dataRows.drop skip) (chSizes (dataRows.length - skip) W) so := by
  unfold streamPairs
  rw [stream_ok header dataRows skip so W hrem]

lemma streamLast_pos (header : List String) (dataRows : List (List String)) (skip so W : Nat)
    (hrem : 0 < dataRows.length - skip) :
    streamLast (header :: dataRows) skip so W = some (skip + dataRows.length) := by
  unfold streamLast
  rw [stream_ok header dataRows skip so W hrem]

lemma streamPairs_all_rows (header : List String) (dataRows : List (List String)) (W : Nat)
    (hW : 1 ≤ W) (hne : ∀ row ∈ dataRows, truthyRow (stripRow row) = true) :
    streamPairs (header :: dataRows) 0 0 W = withOrders 0 (dataRows.map stripRow) := by
  by_cases hT : dataRows.length = 0
  · have h0 : dataRows = [] := List.length_eq_zero.mp hT
    subst h0
    rfl
  · rw [streamPairs_pos header dataRows 0 0 W (by omega), List.drop_zero]
    exact chunksGo_out (chSizes (dataRows.length - 0) W) dataRows 0
      (by rw [Nat.sub_zero]; exact chSizes_sum _ _ hW) hne

lemma processRowGo_length (row : List String) (o : Nat) :
    ∀ (qs : List Question) (i : Nat), (processRowGo row o i qs).length = qs.length := by
  intro qs
  induction qs with
  | nil => intro i; rfl
  | cons q t ih => intro i; simp [processRowGo, ih]

lemma processRowGo_map_order (row : List String) (o : Nat) :
    ∀ (qs : List Question) (i : Nat),
      (processRowGo row o i qs).map OutputOp.order = List.replicate qs.length o := by
  intro qs
  induction qs with
  | nil => intro i; rfl
  | cons q t ih =>
    intro i
    simp [processRowGo, List.replicate_succ, ih]

lemma processRowGo_getElem (row : List String) (o : Nat) :
    ∀ (qs : List Question) (j i : Nat) (q : Question), qs[i]? = some q →
      (processRowGo row o j qs)[i]?
        = some ⟨o, q.title, processField q ((row[j + i]?).map pyStrip)⟩ := by
  intro qs
  induction qs with
  | nil => intro j i q h; simp at h
  | cons qh qt ih =>
    intro j i q h
    cases i with
    | zero =>
      have hq : qh = q := by simpa using h
      subst hq
      simp [processRowGo]
    | succ i2 =>
      have h2 : qt[i2]? = some q := by simpa using h
      simp only [processRowGo, List.getElem?_cons_succ]
      rw [ih (j + 1) i2 q h2]
      have he : j + 1 + i2 = j + (i2 + 1) := by omega
      rw [he]

lemma evalSlider_eq (num : Option Rat) :
    ∀ (rules : List ScoreRule) (acc : Rat), wfRules rules →
      evalSlider num rules acc
        = Except.ok (acc + ((matchingRules num rules).map ruleScore).sum) := by
  intro rules
  induction rules with
  | nil => intro acc _; simp [evalSlider, matchingRules]
  | cons sc rest ih =>
    intro acc hw
    have hsc := hw sc (List.mem_cons_self _ _)
    have hrest : wfRules rest := fun r hr => hw r (List.mem_cons_of_mem _ hr)
    cases hc : sc.condition with
    | none => exact absurd hc hsc.1
    | some c =>
      have hgd : sc.condition.getD "" = c := by rw [hc]; rfl
      simp only [evalSlider, hc]
      by_cases hm : sliderCond c num (cntOf sc) = true
      · have hpred : sliderCond (sc.condition.getD "") num (cntOf sc) = true := by
          rw [hgd]; exact hm
        have hfil : matchingRules num (sc :: rest) = sc :: matchingRules num rest := by
          simp [matchingRules, List.filter_cons, hpred]
        rw [if_pos hm, hfil]
        cases hs : sc.score with
        | malformed => exact absurd hs hsc.2
        | missing =>
          show evalSlider num rest (pyAdd acc 0) = _
          rw [ih _ hrest, pyAdd_eq, add_zero]
          rw [List.map_cons, List.sum_cons]
          rw [show ruleScore sc = 0 from by simp [ruleScore, hs, scoreVal]]
          rw [zero_add]
        | num qv =>
          show evalSlider num rest (pyAdd acc qv) = _
          rw [ih _ hrest, pyAdd_eq]
          rw [List.map_cons, List.sum_cons]
          rw [show ruleScore sc = qv from by simp [ruleScore, hs, scoreVal]]
          rw [add_assoc]
      · have hm2 : sliderCond c num (cntOf sc) = false := by
          cases hmm : sliderCond c num (cntOf sc)
          · rfl
          · exact absurd hmm hm
        have hpred : sliderCond (sc.condition.getD "") num (cntOf sc) = false := by
          rw [hgd]; exact hm2
        have hfil : matchingRules num (sc :: rest) = matchingRules num rest := by
          simp [matchingRules, List.filter_cons, hpred]
        rw [if_neg hm, hfil, ih _ hrest]

lemma sliderCond_none (c : String) (cnt : Rat) :
    sliderCond c none cnt = (c == "not equal to") := by
  by_cases h1 : c = "less than"
  · subst h1; rfl
  by_cases h2 : c = "less than or equal to"
  · subst h2; rfl
  by_cases h3 : c = "equal to"
  · subst h3; rfl
  by_cases h4 : c = "not equal to"
  · subst h4; rfl
  by_cases h5 : c = "greater than or equal to"
  · subst h5; rfl
  by_cases h6 : c = "greater than"
  · subst h6; rfl
  have b1 : (c == "less than") = false := beq_eq_false_iff_ne.mpr h1
  have b2 : (c == "less than or equal to") = false := beq_eq_false_iff_ne.mpr h2
  have b3 : (c == "equal to") = false := beq_eq_false_iff_ne.mpr h3
  have b4 : (c == "not equal to") = false := beq_eq_false_iff_ne.mpr h4
  have b5 : (c == "greater than or equal to") = false := beq_eq_false_iff_ne.mpr h5
  have b6 : (c == "greater than") = false := beq_eq_false_iff_ne.mpr h6
  simp [sliderCond, b1, b2, b3, b4, b5, b6]

lemma matchingRules_none (rules : List ScoreRule) (hw : wfRules rules) :
    matchingRules none rules
      = rules.filter (fun sc => sc.condition == some "not equal to") := by
  unfold matchingRules
  apply List.filter_congr
  intro sc hsc
  obtain ⟨c, hc⟩ := Option.ne_none_iff_exists'.mp ((hw sc hsc).1)
  rw [hc]
  show sliderCond c none (cntOf sc) = (some c == some "not equal to")
  rw [sliderCond_none]
  rfl

lemma evalValue_slider (q : Question) (value : String)
    (ht : q.qtype = "Slider" ∨ q.qtype = "Number") :
    evalValue q value
      = match evalSlider (parseFloat value) q.scoreOptions 0 with
        | Except.error e => Except.error e
        | Except.ok s => Except.ok ⟨s, AnswerVal.str value⟩ := by
  obtain ⟨qt, title, opts, rules⟩ := q
  cases ht with
  | inl h =>
    have h2 : qt = "Slider" := h
    subst h2
    rfl
  | inr h =>
    have h2 : qt = "Number" := h
    subst h2
    rfl

lemma adjust_skip_eq_findGreatest (Q : Nat) (countAt : Nat → Nat) (so : Nat) :
    ∀ k, adjust_skip Q countAt so k
      = Nat.findGreatest (fun j => countAt (so + j - 1) = Q) k := by
  intro k
  induction k with
  | zero => rfl
  | succ k ih =>
    show (if countAt (so + k) = Q then k + 1 else adjust_skip Q countAt so k) = _
    simp only [Nat.findGreatest_succ]
    have he : so + (k + 1) - 1 = so + k := by omega
    rw [he]
    by_cases h : countAt (so + k) = Q
    · rw [if_pos h, if_pos h]
    · rw [if_neg h, if_neg h, ih]

lemma findOption_congr (opts : List AnswerOption) {v w : String}
    (h : normalize_header v = normalize_header w) :
    findOption opts v = findOption opts w := by
  unfold findOption
  rw [h]

/-- Fixture for the resume counterexample: a destination store holding exactly
one record at each of the orders 0–3 (a previous run committed rows 0–3 of a
one-question checklist). -/
def storeFour : Nat → Nat := fun o => if o < 4 then 1 else 0

/-! ## Claim theorems -/

/-- Claim C1 (amended): in a successful run started from `processedRows = 0`
with start order 0, if no data row is entirely empty after trimming, the
committed orders are exactly `{0 … T-1}` in order and the committed rows are
the stripped data rows; in general each chunk assigns
`order = orderStart + (index among the non-empty rows of the chunk)` — not the
local row index — and every output record of a row carries that row's order. -/
theorem c1_orders_dense (header : List String) (dataRows : List (List String)) (W : Nat)
    (hW : 1 ≤ W)
    (hne : ∀ row ∈ dataRows, truthyRow (stripRow row) = true) :
    (streamPairs (header :: dataRows) 0 0 W).map Prod.fst = List.range dataRows.length ∧
    (streamPairs (header :: dataRows) 0 0 W).map Prod.snd = dataRows.map stripRow ∧
    (∀ (rows : List (List String)) (n os : Nat),
      (process_chunk_copy rows n os).out = withOrders os (nonEmptyRows (rows.take n))) ∧
    (∀ (row : List String) (o : Nat) (qs : List Question),
      (process_single_row row o qs).map OutputOp.order = List.replicate qs.length o) := by
  refine ⟨?_, ?_, ?_, ?_⟩
  · rw [streamPairs_all_rows header dataRows W hW hne, withOrders_map_fst, List.length_map,
      List.range_eq_range']
  · rw [streamPairs_all_rows header dataRows W hW hne, withOrders_map_snd]
  · exact fun rows n os => process_chunk_copy_out rows n os
  · exact fun row o qs => processRowGo_map_order row o qs 0

/-- Claim C1, witness: a 3-row file processed by 2 workers commits orders
`[0, 1, 2]`. -/
theorem c1_witness :
    (streamPairs (hdr1 :: rowsABC) 0 0 2).map Prod.fst = List.range 3 :=
  (c1_orders_dense hdr1 rowsABC 2 (by decide) (by decide)).1

/-- Claim C1, counterexample: with data rows `a`, (empty), `b` (T = 3) the
committed pairs are `[(0, a), (1, b)]` — row `b` has local index 2 but gets
order 1, and the order set is not `{0, 1, 2}`. -/
theorem c1_counterexample :
    streamPairs (hdr1 :: rowsGap) 0 0 1 = [(0, ["a"]), (1, ["b"])] ∧
    (streamPairs (hdr1 :: rowsGap) 0 0 1).map Prod.fst ≠ List.range rowsGap.length := by
  refine ⟨?_, ?_⟩ <;> decide

/-- Claim C2 (amended): `lastRecord` is not advanced per batch; when any rows
remain it is written exactly once, after all chunks finish, to
`skip_rows + total_data_rows`, while the run commits at most
`total_data_rows - skip_rows` rows — so on a resumed run (`skip > 0`) the
written value strictly exceeds every possible committed-row count. -/
theorem c2_lastRecord (header : List String) (dataRows : List (List String)) (skip so W : Nat)
    (hW : 1 ≤ W) (hrem : 0 < dataRows.length - skip) :
    streamLast (header :: dataRows) skip so W = some (skip + dataRows.length) ∧
    (streamPairs (header :: dataRows) skip so W).length ≤ dataRows.length - skip ∧
    (0 < skip →
      skip + (streamPairs (header :: dataRows) skip so W).length < skip + dataRows.length) := by
  have hlen : (streamPairs (header :: dataRows) skip so W).length ≤ dataRows.length - skip := by
    rw [streamPairs_pos header dataRows skip so W hrem]
    have h1 := chunksGo_length_le (chSizes (dataRows.length - skip) W) (dataRows.drop skip) so
    rw [chSizes_sum (dataRows.length - skip) W hW] at h1
    exact h1
  exact ⟨streamLast_pos header dataRows skip so W hrem, hlen, fun hs => by omega⟩

/-- Claim C2, witness: resuming a 10-row file at `skip = 4` writes
`lastRecord = 4 + 10`. -/
theorem c2_witness :
    streamLast (hdr1 :: rows10) 4 4 1 = some (4 + rows10.length) :=
  (c2_lastRecord hdr1 rows10 4 4 1 (by decide) (by decide)).1

/-- Claim C2, counterexample: a 10-row file resumed at `skip = 4` commits 6
rows in this run (10 ever), yet the single `lastRecord` update writes 14 —
the counter is stale-high, and no per-batch increment exists. -/
theorem c2_counterexample :
    streamLast (hdr1 :: rows10) 4 4 1 = some 14 ∧
    (streamPairs (hdr1 :: rows10) 4 4 1).length = 6 ∧
    4 + (streamPairs (hdr1 :: rows10) 4 4 1).length < 14 := by
  refine ⟨?_, ?_, ?_⟩ <;> decide

/-- Claim C3 (amended): the retry path re-derives its state from the
destination store: `start_order` is the store's maximal committed order plus
one, and the skip handed to the splitter is the greatest `k ≤ lastRecord` such
that the store holds exactly `Q` records at order `start_order + k - 1` (0 when
none qualifies) — not simply `processedRows`. -/
theorem c3_resume (Q : Nat) (countAt : Nat → Nat) (m lastRecord : Nat) (hQ : 0 < Q) :
    resume_skip Q countAt (start_order_of (some m)) lastRecord
        = Nat.findGreatest (fun j => countAt (m + 1 + j - 1) = Q) lastRecord ∧
      start_order_of (some m) = m + 1 ∧ start_order_of none = 0 := by
  refine ⟨?_, rfl, rfl⟩
  show (if 0 < Q then adjust_skip Q countAt (m + 1) lastRecord else lastRecord) = _
  rw [if_pos hQ]
  exact adjust_skip_eq_findGreatest Q countAt (m + 1) lastRecord

/-- Claim C3, witness: the resume computation on the Scenario-D store. -/
theorem c3_witness :
    resume_skip 1 storeFour (start_order_of (some 3)) 4
      = Nat.findGreatest (fun j => storeFour (3 + 1 + j - 1) = 1) 4 :=
  (c3_resume 1 storeFour 3 4 (by decide)).1

/-- Claim C3, counterexample (Scenario D): 10-row file, orders 0–3 committed
with Q = 1, `lastRecord = 4`.  The code sets `start_order = 4` and adjusts the
skip down to 0 (≠ processedRows = 4), then reprocesses all 10 rows with orders
4–13 — instead of processing rows 4–9 with orders 4–9 and leaving 0–3
untouched. -/
theorem c3_counterexample :
    resume_skip 1 storeFour (start_order_of (some 3)) 4 = 0 ∧
    (0 : Nat) ≠ 4 ∧
    (streamPairs (hdr1 :: rows10) (resume_skip 1 storeFour (start_order_of (some 3)) 4)
        (start_order_of (some 3)) 1).map Prod.fst = List.range' 4 10 ∧
    (streamPairs (hdr1 :: rows10) (resume_skip 1 storeFour (start_order_of (some 3)) 4)
        (start_order_of (some 3)) 1).length = 10 := by
  refine ⟨?_, ?_, ?_, ?_⟩ <;> decide

/-- Claim C4 (confirmed): the claim update moves only `Pending` or `Failed`
files into `Processing` (a `Processing` or `Completed` file is never claimed),
and a claimed run ends in exactly `Completed` (success) or `Failed` (any
processing error). -/
theorem c4_lifecycle :
    ∀ b : Bool,
      claim_file FileStatus.Pending = some FileStatus.Processing ∧
      claim_file FileStatus.Failed = some FileStatus.Processing ∧
      claim_file FileStatus.Processing = none ∧
      claim_file FileStatus.Completed = none ∧
      process_csv_file_status FileStatus.Pending b
          = (if b then FileStatus.Completed else FileStatus.Failed) ∧
      process_csv_file_status FileStatus.Failed b
          = (if b then FileStatus.Completed else FileStatus.Failed) := by
  intro b
  cases b <;> exact ⟨rfl, rfl, rfl, rfl, rfl, rfl⟩

/-- Claim C5 (confirmed): for a numeric/slider field on a value that parses as
a number, the score is the sum of the scores of exactly the rules whose
condition holds — no short-circuit — and the raw value is stored as the
answer. -/
theorem c5_numeric_sum (q : Question) (value : String) (v : Rat)
    (ht : q.qtype = "Slider" ∨ q.qtype = "Number")
    (hp : parseFloat value = some v)
    (hw : wfRules q.scoreOptions) :
    processField q (some value)
      = ⟨((matchingRules (some v) q.scoreOptions).map ruleScore).sum, AnswerVal.str value⟩ := by
  have hvne : (value == "") = false := by
    cases he : value == ""
    · rfl
    · exfalso
      have hveq : value = "" := eq_of_beq he
      subst hveq
      have h0 : parseFloat "" = none := rfl
      rw [h0] at hp
      exact Option.noConfusion hp
  rw [show processField q (some value)
      = (if value == "" then (⟨0, AnswerVal.unset⟩ : FieldResult)
         else
           match evalValue q value with
           | Except.ok r => r
           | Except.error _ => ⟨0, AnswerVal.unset⟩) from rfl]
  rw [if_neg (by rw [hvne]; exact Bool.false_ne_true)]
  rw [evalValue_slider q value ht, hp, evalSlider_eq (some v) q.scoreOptions 0 hw, zero_add]

/-- Claim C5, witness (Scenario B): rules greater-than-10 (5 points) and
less-than-or-equal-10 (2 points) on input "15" give score 5, answer "15". -/
theorem c5_witness :
    processField scenarioBq (some "15")
        = ⟨((matchingRules (some 15) scenarioBq.scoreOptions).map ruleScore).sum,
           AnswerVal.str "15"⟩ ∧
    processField scenarioBq (some "15") = ⟨5, AnswerVal.str "15"⟩ :=
  ⟨c5_numeric_sum scenarioBq "15" 15 (Or.inr rfl) (by decide) (by decide), by decide⟩

/-- Claim C6 (amended): a non-empty value that does not parse as a number is
treated as NaN, which fails every comparison except `not equal to` — which NaN
always satisfies — so the score equals the sum of the not-equal-to rules'
scores rather than being 0 regardless of the rules. -/
theorem c6_nan_ne (q : Question) (value : String)
    (ht : q.qtype = "Slider" ∨ q.qtype = "Number")
    (hp : parseFloat value = none) (hv : value ≠ "")
    (hw : wfRules q.scoreOptions) :
    processField q (some value)
      = ⟨((q.scoreOptions.filter (fun sc => sc.condition == some "not equal to")).map
            ruleScore).sum,
         AnswerVal.str value⟩ := by
  have hvne : (value == "") = false := beq_eq_false_iff_ne.mpr hv
  rw [show processField q (some value)
      = (if value == "" then (⟨0, AnswerVal.unset⟩ : FieldResult)
         else
           match evalValue q value with
           | Except.ok r => r
           | Except.error _ => ⟨0, AnswerVal.unset⟩) from rfl]
  rw [if_neg (by rw [hvne]; exact Bool.false_ne_true)]
  rw [evalValue_slider q value ht, hp, evalSlider_eq none q.scoreOptions 0 hw,
    matchingRules_none q.scoreOptions hw, zero_add]

/-- Claim C6, witness: the not-equal-to rule of `sliderNE10` is the matching
set for the unparsable value "abc". -/
theorem c6_witness :
    processField sliderNE10 (some "abc")
      = ⟨((sliderNE10.scoreOptions.filter (fun sc => sc.condition == some "not equal to")).map
            ruleScore).sum,
         AnswerVal.str "abc"⟩ :=
  c6_nan_ne sliderNE10 "abc" (Or.inl rfl) (by decide) (by decide) (by decide)

/-- Claim C6, counterexample: a slider field whose only rule is
`{not equal to 10, score 3}` scores 3 — not 0 — on the non-numeric value
"abc". -/
theorem c6_counterexample :
    processField sliderNE10 (some "abc") = ⟨3, AnswerVal.str "abc"⟩ ∧ (3 : Rat) ≠ 0 := by
  refine ⟨?_, ?_⟩ <;> decide

/-- Claim C7 (confirmed): an empty or absent raw cell (including cells beyond
the end of a short row) yields the zero-score unset answer for any field type,
and one output operation per field is still emitted. -/
theorem c7_empty_default (qs : List Question) (row : List String) (o i : Nat) (q : Question)
    (hq : qs[i]? = some q)
    (hv : (row[i]?).map pyStrip = none ∨ (row[i]?).map pyStrip = some "") :
    (process_single_row row o qs)[i]? = some ⟨o, q.title, ⟨0, AnswerVal.unset⟩⟩ ∧
    (process_single_row row o qs).length = qs.length := by
  constructor
  · show (processRowGo row o 0 qs)[i]? = _
    rw [processRowGo_getElem row o qs 0 i q hq, Nat.zero_add]
    cases hv with
    | inl h => rw [h]; rfl
    | inr h => rw [h]; rfl
  · exact processRowGo_length row o qs 0

/-- Claim C7, witness: an empty row still produces one default op for the only
question. -/
theorem c7_witness :
    (process_single_row [] 5 [plainTextQ])[0]?
        = some ⟨5, plainTextQ.title, ⟨0, AnswerVal.unset⟩⟩ ∧
    (process_single_row [] 5 [plainTextQ]).length = 1 :=
  c7_empty_default [plainTextQ] [] 5 0 plainTextQ (by decide) (Or.inl (by decide))

/-- Claim C8 (confirmed): if evaluating a field's value raises, the exception
is caught and isolated — that field's answer stays at the zero-score unset
default, an op is still emitted for it (the row keeps one op per field), and
every other field is processed exactly as usual. -/
theorem c8_exception_isolated (qs : List Question) (row : List String) (o i : Nat)
    (q : Question) (v : String)
    (hq : qs[i]? = some q)
    (hv : (row[i]?).map pyStrip = some v)
    (hne : (v == "") = false)
    (herr : evalValue q v = Except.error ()) :
    (process_single_row row o qs)[i]? = some ⟨o, q.title, ⟨0, AnswerVal.unset⟩⟩ ∧
    (process_single_row row o qs).length = qs.length ∧
    (∀ (j : Nat) (q2 : Question), j ≠ i → qs[j]? = some q2 →
      (process_single_row row o qs)[j]?
        = some ⟨o, q2.title, processField q2 ((row[j]?).map pyStrip)⟩) := by
  refine ⟨?_, processRowGo_length row o qs 0, ?_⟩
  · show (processRowGo row o 0 qs)[i]? = _
    rw [processRowGo_getElem row o qs 0 i q hq, Nat.zero_add, hv]
    have hpf : processField q (some v) = ⟨0, AnswerVal.unset⟩ := by
      rw [show processField q (some v)
          = (if v == "" then (⟨0, AnswerVal.unset⟩ : FieldResult)
             else
               match evalValue q v with
               | Except.ok r => r
               | Except.error _ => ⟨0, AnswerVal.unset⟩) from rfl]
      rw [if_neg (by rw [hne]; exact Bool.false_ne_true), herr]
    rw [hpf]
  · intro j q2 _ hqj
    show (processRowGo row o 0 qs)[j]? = _
    rw [processRowGo_getElem row o qs 0 j q2 hqj, Nat.zero_add]

/-- Claim C8, witness: a rule with a missing condition key makes field 0 raise;
its op is emitted with the default answer and the row still has one op per
field. -/
theorem c8_witness :
    (process_single_row ["5", "x"] 9 [badRuleQ, plainTextQ])[0]?
        = some ⟨9, badRuleQ.title, ⟨0, AnswerVal.unset⟩⟩ ∧
    (process_single_row ["5", "x"] 9 [badRuleQ, plainTextQ]).length = 2 := by
  have h := c8_exception_isolated [badRuleQ, plainTextQ] ["5", "x"] 9 0 badRuleQ "5"
    (by decide) (by decide) (by decide) (by rfl)
  exact ⟨h.1, h.2.1⟩

/-- Claim C9 (confirmed): choice-option lookup is case-, whitespace- and
markup-insensitive — "Yes", " yes " and "<b>yes</b>" resolve identically for
every option list — and Scenario C: options Red = 3, Blue = 2 on input
"red, blue" give answer ["red", "blue"] and score 5. -/
theorem c9_choice_insensitive :
    (∀ opts : List AnswerOption,
      findOption opts "Yes" = findOption opts " yes " ∧
      findOption opts "<b>yes</b>" = findOption opts " yes ") ∧
    processField multiRB (some "red, blue") = ⟨5, AnswerVal.strList ["red", "blue"]⟩ := by
  constructor
  · intro opts
    exact ⟨findOption_congr opts (by decide), findOption_congr opts (by decide)⟩
  · decide

/-- Claim C10 (amended): only a missing header row (empty file) aborts the
stream — reading the header raises and the run fails; a header row that parses
to zero columns is accepted and the data rows are processed normally, with no
zero-column format check anywhere. -/
theorem c10_zero_columns (hdr : List String) (dataRows : List (List String))
    (skip so W : Nat) :
    isStreamError [] skip so W = true ∧ isStreamError (hdr :: dataRows) skip so W = false := by
  refine ⟨rfl, ?_⟩
  unfold isStreamError
  by_cases h : dataRows.length - skip = 0
  · rw [show stream_local_csv (hdr :: dataRows) skip so W = Except.ok ⟨[], none⟩ from by
      simp only [stream_local_csv]
      rw [if_pos h]]
  · rw [stream_ok hdr dataRows skip so W (by omega)]

/-- Claim C10, counterexample: a file whose first (header) line has zero
columns is not aborted — the run proceeds and commits the data row with order
0. -/
theorem c10_counterexample :
    isStreamError zeroColFile 0 0 1 = false ∧
    streamPairs zeroColFile 0 0 1 = [(0, ["a"])] ∧
    zeroColFile[0]? = some [] := by
  refine ⟨?_, ?_, ?_⟩ <;> decide
